import Mathlib

/-!
Verification of the monthly-delta engine of
`WestfalenWeser_Monatsberechnung_Vormonat_Erweitert.js`.

Samples carry a millisecond UNIX timestamp and a meter value; the engine
`getDeltaWithFallback` computes the monthly delta with fallback policy, and
`calculateMonthlyConsumption` aggregates a feed and a consumption series
into a net figure.  Numbers are modelled as rationals; timestamps as
integers.  `new Date(ts).getUTCFullYear()/getUTCMonth()` is modelled by an
exact civil-from-days computation on the UTC day number.
-/

namespace MonatsBerechnung

/-- One meter reading: `{ ts, value }` in the source. -/
structure Sample where
  ts : ℤ
  value : ℚ
deriving DecidableEq, Repr

/-- `new Date(ts).getUTCFullYear()` and `getUTCMonth()` (0-based month):
days since the epoch via flooring division by 86400000 ms, then the
standard civil-from-days calendar computation. -/
def utcYearMonth (ts : ℤ) : ℤ × ℕ :=
  let days : ℤ := Int.fdiv ts 86400000
  let z : ℤ := days + 719468
  let era : ℤ := Int.fdiv z 146097
  let doe : ℕ := (z - era * 146097).toNat
  let yoe : ℕ := (doe - doe / 1460 + doe / 36524 - doe / 146096) / 365
  let y : ℤ := (yoe : ℤ) + era * 400
  let doy : ℕ := doe - (365 * yoe + yoe / 4 - yoe / 100)
  let mp : ℕ := (5 * doy + 2) / 153
  let m1 : ℕ := if mp < 10 then mp + 3 else mp - 9
  let year : ℤ := if m1 ≤ 2 then y + 1 else y
  (year, m1 - 1)

/-- Floor of a rational, computed directly on the numerator/denominator. -/
def ratFloor (q : ℚ) : ℤ := Int.fdiv q.num (q.den : ℤ)

/-- Round a rational to the nearest integer, ties away from zero: the
rounding used by JavaScript `toFixed` on the (exact) value. -/
def roundHalfAway (x : ℚ) : ℤ :=
  if 0 ≤ x then ratFloor (x + 1/2) else -(ratFloor (-x + 1/2))

/-- `parseFloat(v.toFixed(2))`: round to two decimal places,
half away from zero. -/
def round2 (x : ℚ) : ℚ := ((roundHalfAway (x * 100) : ℚ)) / 100

/-- The engine's tagged result, one constructor per return site of
`getDeltaWithFallback`: the bare `0` returns are `Empty`, the info-objects
are `SingleSample`/`FirstMeasurement`/`NoChange` (the latter's object
carries `value: 0`), and a bare nonzero number is `Numeric`. -/
inductive DeltaResult where
  | Empty : DeltaResult
  | SingleSample : ℚ → ℤ → DeltaResult
  | FirstMeasurement : ℚ → DeltaResult
  | NoChange : ℚ → DeltaResult
  | Numeric : ℚ → DeltaResult
deriving DecidableEq, Repr

/-- A sample augmented with its `date` field, as produced by the `map` at
the top of `getDeltaWithFallback` (`{ ...entry, date: new Date(entry.ts) }`);
of the `Date` object only the UTC year and month are ever read. -/
structure DatedSample where
  ts : ℤ
  value : ℚ
  date : ℤ × ℕ
deriving DecidableEq, Repr

/-- `entry => ({ ...entry, date: new Date(entry.ts) })`. -/
def addDate (e : Sample) : DatedSample :=
  { ts := e.ts, value := e.value, date := utcYearMonth e.ts }

/-- The sort comparator `(a, b) => a.ts - b.ts` (ascending by timestamp). -/
def tsLe (a b : DatedSample) : Bool := decide (a.ts ≤ b.ts)

/-- `const prevMonth = month === 0 ? 11 : month - 1`. -/
def prevMonth (month : ℕ) : ℕ := if month = 0 then 11 else month - 1

/-- `const prevYear = month === 0 ? year - 1 : year`. -/
def prevYear (year : ℤ) (month : ℕ) : ℤ := if month = 0 then year - 1 else year

/-- Body of `getDeltaWithFallback` after the map/sort: the two filters and
the decision chain. -/
def deltaFromSorted (sorted : List DatedSample) (year : ℤ) (month : ℕ) :
    DeltaResult :=
  let lastOfPrev :=
    (sorted.filter fun e =>
      decide (e.date = (prevYear year month, prevMonth month))).getLast?
  let currentMonthSamples :=
    sorted.filter fun e => decide (e.date = (year, month))
  match currentMonthSamples.head?, currentMonthSamples.getLast? with
  | some firstOfCurrent, some lastOfCurrent =>
    if currentMonthSamples.length = 1 then
      DeltaResult.SingleSample firstOfCurrent.value firstOfCurrent.ts
    else
      match lastOfPrev with
      | none => DeltaResult.FirstMeasurement lastOfCurrent.value
      | some p =>
        let delta := round2 (lastOfCurrent.value - p.value)
        if delta = 0 then DeltaResult.NoChange 0 else DeltaResult.Numeric delta
  | _, _ => DeltaResult.Empty

/-- One call of `getDeltaWithFallback`, with the caller-observed series
after the call as second component: the source copies the input with `map`
before sorting (`timestampedValues.map(...).sort(...)`), so the in-place
sort mutates only the fresh mapped array and the caller's array is
unchanged. -/
def getDeltaWithFallbackObs (timestampedValues : Option (List Sample))
    (year : ℤ) (month : ℕ) : DeltaResult × Option (List Sample) :=
  match timestampedValues with
  | none => (DeltaResult.Empty, none)
  | some l =>
    if l.length = 0 then (DeltaResult.Empty, some l)
    else
      let timestampedValuesWithDate := l.map addDate
      let sorted := timestampedValuesWithDate.mergeSort tsLe
      (deltaFromSorted sorted year month, some l)

/-- `getDeltaWithFallback(timestampedValues)` with the globals `year` and
`month` passed explicitly; `none` models an absent (falsy) argument. -/
def getDeltaWithFallback (timestampedValues : Option (List Sample))
    (year : ℤ) (month : ℕ) : DeltaResult :=
  (getDeltaWithFallbackObs timestampedValues year month).1

/-- The caller's value extraction
`typeof r === "object" ? r.value ?? 0 : r`: the two bare-number returns
(`Empty`'s `0` and `Numeric`'s delta) pass through, the info-objects give
their `value` field (always present, so `?? 0` never fires). -/
def extractValue : DeltaResult → ℚ
  | DeltaResult.Empty => 0
  | DeltaResult.SingleSample v _ => v
  | DeltaResult.FirstMeasurement v => v
  | DeltaResult.NoChange v => v
  | DeltaResult.Numeric v => v

/-- Value extraction as the specification words it: the number itself for
`Numeric`, the carried value for `SingleSample` and `FirstMeasurement`, and
the number `0` for `NoChange` and `Empty`. -/
def specValueOf : DeltaResult → ℚ
  | DeltaResult.Empty => 0
  | DeltaResult.SingleSample v _ => v
  | DeltaResult.FirstMeasurement v => v
  | DeltaResult.NoChange _ => 0
  | DeltaResult.Numeric v => v

/-- The record returned by `calculateMonthlyConsumption`. -/
structure MonthlyResult where
  feed_monthly : DeltaResult
  consumption_monthly : DeltaResult
  net_consumption : ℚ
deriving DecidableEq, Repr

/-- `calculateMonthlyConsumption(feed, consumption)` with the globals
passed explicitly. -/
def calculateMonthlyConsumption (feed consumption : Option (List Sample))
    (year : ℤ) (month : ℕ) : MonthlyResult :=
  let feedResult := getDeltaWithFallback feed year month
  let consumptionResult := getDeltaWithFallback consumption year month
  let feedValue := extractValue feedResult
  let consumptionValue := extractValue consumptionResult
  let net := round2 (consumptionValue - feedValue)
  { feed_monthly := feedResult
    consumption_monthly := consumptionResult
    net_consumption := net }

/-- The hardcoded `feed` array of the script. -/
def feed : List Sample :=
  [⟨1740785107000, 1578.45⟩, ⟨1740786007000, 1578.45⟩,
   ⟨1740786908000, 1578.45⟩, ⟨1740787508000, 1578.45⟩,
   ⟨1743464710000, 2156.43⟩, ⟨1743465610000, 2156.43⟩,
   ⟨1743466510000, 2156.43⟩, ⟨1743467410000, 2156.43⟩]

/-- The hardcoded `consumption` array of the script. -/
def consumption : List Sample :=
  [⟨1740785107000, 93709.83⟩, ⟨1740786007000, 93716.39⟩,
   ⟨1740786908000, 93723.98⟩, ⟨1740787508000, 93726.74⟩,
   ⟨1743464710000, 116790.68⟩, ⟨1743465610000, 116803.95⟩,
   ⟨1743466510000, 116807.26⟩, ⟨1743467410000, 116815.18⟩]

/-- The samples of `l` whose UTC year and month equal `(y, m)`, in the
original order: the reference notion used to state the claims. -/
def monthSamples (l : List Sample) (y : ℤ) (m : ℕ) : List Sample :=
  l.filter fun e => decide (utcYearMonth e.ts = (y, m))

/-- Stable insertion of a dated sample into a ts-sorted list: the inserted
element goes before the first element of greater-or-equal timestamp. -/
def insertByTs (a : DatedSample) : List DatedSample → List DatedSample
  | [] => [a]
  | b :: t => if a.ts ≤ b.ts then a :: b :: t else b :: insertByTs a t

/-- Structural stable insertion sort by timestamp; proved below to agree
with `List.mergeSort tsLe`, so concrete runs of the engine can be computed
by kernel reduction. -/
def sortByTs : List DatedSample → List DatedSample
  | [] => []
  | a :: t => insertByTs a (sortByTs t)

/-- `getDeltaWithFallback` with the stable sort realised by `sortByTs`;
proved below to agree with `getDeltaWithFallback`, and used to evaluate
the engine on concrete series. -/
def getDeltaWithFallbackExec (timestampedValues : Option (List Sample))
    (year : ℤ) (month : ℕ) : DeltaResult :=
  match timestampedValues with
  | none => DeltaResult.Empty
  | some l =>
    if l.length = 0 then DeltaResult.Empty
    else deltaFromSorted (sortByTs (l.map addDate)) year month

end MonatsBerechnung

namespace MonatsBerechnung

theorem tsLe_trans : ∀ (a b c : DatedSample),
    tsLe a b → tsLe b c → tsLe a c := by
  intro a b c
  simp only [tsLe, decide_eq_true_eq]
  omega

theorem tsLe_total : ∀ (a b : DatedSample), tsLe a b || tsLe b a := by
  intro a b
  simp only [tsLe, Bool.or_eq_true, decide_eq_true_eq]
  omega

theorem insertByTs_append (a : DatedSample) (l₁ l₂ : List DatedSample)
    (h₁ : ∀ b ∈ l₁, ¬ a.ts ≤ b.ts) (h₂ : ∀ c ∈ l₂, a.ts ≤ c.ts) :
    insertByTs a (l₁ ++ l₂) = l₁ ++ a :: l₂ := by
  induction l₁ with
  | nil =>
    cases l₂ with
    | nil => rfl
    | cons c t =>
      simp only [List.nil_append, insertByTs,
        if_pos (h₂ c (List.mem_cons_self c t))]
  | cons b t ih =>
    simp only [List.cons_append, insertByTs,
      if_neg (h₁ b (List.mem_cons_self b t))]
    rw [show (t.append l₂) = t ++ l₂ from rfl,
      ih (fun x hx => h₁ x (List.mem_cons_of_mem b hx))]

theorem sortByTs_eq_mergeSort (l : List DatedSample) :
    sortByTs l = l.mergeSort tsLe := by
  induction l with
  | nil => simp [sortByTs]
  | cons a t ih =>
    obtain ⟨l₁, l₂, h1, h2, h3⟩ := List.mergeSort_cons tsLe_trans tsLe_total a t
    have hsorted := List.sorted_mergeSort tsLe_trans tsLe_total (a :: t)
    rw [h1] at hsorted
    have hsuffix : (a :: l₂).Pairwise (fun x y => tsLe x y) :=
      hsorted.sublist (List.sublist_append_right l₁ (a :: l₂))
    have h₂ : ∀ c ∈ l₂, a.ts ≤ c.ts := by
      intro c hc
      have := (List.pairwise_cons.mp hsuffix).1 c hc
      simpa [tsLe] using this
    have h₁ : ∀ b ∈ l₁, ¬ a.ts ≤ b.ts := by
      intro b hb
      have := h3 b hb
      simpa [tsLe] using this
    simp only [sortByTs, ih, h2, h1]
    exact insertByTs_append a l₁ l₂ h₁ h₂

theorem getDeltaWithFallback_eq_exec
    (tv : Option (List Sample)) (y : ℤ) (m : ℕ) :
    getDeltaWithFallback tv y m = getDeltaWithFallbackExec tv y m := by
  cases tv with
  | none => rfl
  | some l =>
    simp only [getDeltaWithFallback, getDeltaWithFallbackObs,
      getDeltaWithFallbackExec, sortByTs_eq_mergeSort]
    split <;> rfl

theorem ratFloor_eq_floor (q : ℚ) : ratFloor q = ⌊q⌋ := by
  rw [Rat.floor_def, ratFloor, Int.fdiv_eq_ediv]
  exact Int.ofNat_nonneg q.den

theorem roundHalfAway_intCast (n : ℤ) : roundHalfAway (n : ℚ) = n := by
  rw [roundHalfAway]
  split
  · rw [ratFloor_eq_floor]
    rw [show ((n : ℚ) + 1/2) = (1/2 : ℚ) + n from by ring]
    rw [Int.floor_add_int]
    norm_num
  · rw [ratFloor_eq_floor]
    rw [show (-(n : ℚ) + 1/2) = (1/2 : ℚ) + (-n : ℤ) from by push_cast; ring]
    rw [Int.floor_add_int]
    norm_num

theorem round2_div100 (n : ℤ) : round2 ((n : ℚ) / 100) = (n : ℚ) / 100 := by
  rw [round2, show ((n : ℚ) / 100 * 100) = (n : ℚ) from by ring,
    roundHalfAway_intCast]

theorem round2_intCast (n : ℤ) : round2 (n : ℚ) = n := by
  rw [round2, show ((n : ℚ) * 100) = ((n * 100 : ℤ) : ℚ) from by push_cast; ring,
    roundHalfAway_intCast]
  push_cast
  ring

theorem sortedFilter_perm (l : List Sample) (y : ℤ) (m : ℕ) :
    (((l.map addDate).mergeSort tsLe).filter
        (fun e => decide (e.date = (y, m)))).Perm
      ((monthSamples l y m).map addDate) := by
  have h1 : ((l.map addDate).mergeSort tsLe).Perm (l.map addDate) :=
    List.mergeSort_perm _ _
  have h2 := h1.filter (fun e => decide (e.date = (y, m)))
  rwa [List.filter_map] at h2

theorem length_sortedFilter (l : List Sample) (y : ℤ) (m : ℕ) :
    (((l.map addDate).mergeSort tsLe).filter
        (fun e => decide (e.date = (y, m)))).length
      = (monthSamples l y m).length := by
  rw [(sortedFilter_perm l y m).length_eq, List.length_map]

theorem mem_sortedFilter_iff (l : List Sample) (y : ℤ) (m : ℕ)
    (x : DatedSample) :
    x ∈ ((l.map addDate).mergeSort tsLe).filter
        (fun e => decide (e.date = (y, m)))
      ↔ ∃ s ∈ l, utcYearMonth s.ts = (y, m) ∧ addDate s = x := by
  rw [(sortedFilter_perm l y m).mem_iff, List.mem_map]
  constructor
  · rintro ⟨s, hs, rfl⟩
    have hs' := List.mem_filter.mp hs
    exact ⟨s, hs'.1, by simpa using hs'.2, rfl⟩
  · rintro ⟨s, hsl, hsm, rfl⟩
    exact ⟨s, List.mem_filter.mpr ⟨hsl, by simpa using hsm⟩, rfl⟩

theorem pairwise_sortedFilter (l : List Sample) (y : ℤ) (m : ℕ) :
    (((l.map addDate).mergeSort tsLe).filter
        (fun e => decide (e.date = (y, m)))).Pairwise (fun a b => tsLe a b) :=
  List.Pairwise.filter _ (List.sorted_mergeSort tsLe_trans tsLe_total _)

theorem ts_le_getLast {L : List DatedSample}
    (hp : L.Pairwise (fun a b => tsLe a b)) {x : DatedSample}
    (hx : L.getLast? = some x) : ∀ a ∈ L, a.ts ≤ x.ts := by
  obtain ⟨ys, rfl⟩ := List.getLast?_eq_some_iff.mp hx
  intro a ha
  rcases List.mem_append.mp ha with h | h
  · have := (List.pairwise_append.mp hp).2.2 a h x (List.mem_singleton.mpr rfl)
    simpa [tsLe] using this
  · rcases List.mem_singleton.mp h with rfl
    exact le_refl _

theorem getDelta_some (l : List Sample) (y : ℤ) (m : ℕ) (hl : l ≠ []) :
    getDeltaWithFallback (some l) y m
      = deltaFromSorted ((l.map addDate).mergeSort tsLe) y m := by
  simp only [getDeltaWithFallback, getDeltaWithFallbackObs]
  rw [if_neg (by simpa using hl)]

theorem deltaFromSorted_of_empty (sorted : List DatedSample) (y : ℤ) (m : ℕ)
    (h : (sorted.filter fun e => decide (e.date = (y, m))) = []) :
    deltaFromSorted sorted y m = DeltaResult.Empty := by
  simp only [deltaFromSorted, h]
  rfl

theorem deltaFromSorted_of_current (sorted : List DatedSample) (y : ℤ)
    (m : ℕ) {f x : DatedSample}
    (hf : (sorted.filter fun e => decide (e.date = (y, m))).head? = some f)
    (hx : (sorted.filter fun e => decide (e.date = (y, m))).getLast? = some x) :
    deltaFromSorted sorted y m =
      if (sorted.filter fun e => decide (e.date = (y, m))).length = 1 then
        DeltaResult.SingleSample f.value f.ts
      else
        match (sorted.filter fun e =>
            decide (e.date = (prevYear y m, prevMonth m))).getLast? with
        | none => DeltaResult.FirstMeasurement x.value
        | some p =>
          if round2 (x.value - p.value) = 0 then DeltaResult.NoChange 0
          else DeltaResult.Numeric (round2 (x.value - p.value)) := by
  simp only [deltaFromSorted]
  rw [hf, hx]

/-- Claim C1: for every series with at least 2 samples in the target month
and at least 1 sample in the immediately preceding calendar month (with the
December-to-January year wrap when the target month is 0, per `prevYear` and
`prevMonth`), `getDeltaWithFallback` returns `Numeric d` or `NoChange`,
where `d = round2 (lastOfTarget.value - lastOfPrevious.value)` is computed
from greatest-timestamp samples of each month, and `NoChange` is returned
if and only if `d = 0`. -/
theorem getDelta_numeric_or_noChange (l : List Sample) (y : ℤ) (m : ℕ)
    (hc : 2 ≤ (monthSamples l y m).length)
    (hp : 1 ≤ (monthSamples l (prevYear y m) (prevMonth m)).length) :
    ∃ st sp : Sample, st ∈ l ∧ utcYearMonth st.ts = (y, m) ∧
      (∀ s ∈ l, utcYearMonth s.ts = (y, m) → s.ts ≤ st.ts) ∧
      sp ∈ l ∧ utcYearMonth sp.ts = (prevYear y m, prevMonth m) ∧
      (∀ s ∈ l, utcYearMonth s.ts = (prevYear y m, prevMonth m) →
        s.ts ≤ sp.ts) ∧
      getDeltaWithFallback (some l) y m =
        (if round2 (st.value - sp.value) = 0 then DeltaResult.NoChange 0
         else DeltaResult.Numeric (round2 (st.value - sp.value))) := by
  have hl : l ≠ [] := by
    intro h
    rw [h] at hc
    simp [monthSamples] at hc
  have hclen := length_sortedFilter l y m
  have hplen := length_sortedFilter l (prevYear y m) (prevMonth m)
  set cur := ((l.map addDate).mergeSort tsLe).filter
    (fun e => decide (e.date = (y, m))) with hcurdef
  set prevL := ((l.map addDate).mergeSort tsLe).filter
    (fun e => decide (e.date = (prevYear y m, prevMonth m))) with hprevdef
  obtain ⟨x, hx⟩ : ∃ x, cur.getLast? = some x := by
    cases h : cur.getLast? with
    | none =>
      rw [List.getLast?_eq_none_iff.mp h] at hclen
      simp at hclen
      omega
    | some x => exact ⟨x, rfl⟩
  obtain ⟨f, hf⟩ : ∃ f, cur.head? = some f := by
    cases h : cur.head? with
    | none =>
      rw [List.head?_eq_none_iff.mp h] at hclen
      simp at hclen
      omega
    | some f => exact ⟨f, rfl⟩
  obtain ⟨xp, hxp⟩ : ∃ xp, prevL.getLast? = some xp := by
    cases h : prevL.getLast? with
    | none =>
      rw [List.getLast?_eq_none_iff.mp h] at hplen
      simp at hplen
      omega
    | some xp => exact ⟨xp, rfl⟩
  obtain ⟨st, hstl, hstm, hste⟩ :=
    (mem_sortedFilter_iff l y m x).mp (List.mem_of_getLast?_eq_some hx)
  obtain ⟨sp, hspl, hspm, hspe⟩ :=
    (mem_sortedFilter_iff l (prevYear y m) (prevMonth m) xp).mp
      (List.mem_of_getLast?_eq_some hxp)
  refine ⟨st, sp, hstl, hstm, ?_, hspl, hspm, ?_, ?_⟩
  · intro s hs hsm
    have hmem : addDate s ∈ cur :=
      (mem_sortedFilter_iff l y m (addDate s)).mpr ⟨s, hs, hsm, rfl⟩
    have := ts_le_getLast (pairwise_sortedFilter l y m) hx (addDate s) hmem
    rw [← hste] at this
    exact this
  · intro s hs hsm
    have hmem : addDate s ∈ prevL :=
      (mem_sortedFilter_iff l (prevYear y m) (prevMonth m)
        (addDate s)).mpr ⟨s, hs, hsm, rfl⟩
    have := ts_le_getLast
      (pairwise_sortedFilter l (prevYear y m) (prevMonth m)) hxp
      (addDate s) hmem
    rw [← hspe] at this
    exact this
  · rw [getDelta_some l y m hl,
      deltaFromSorted_of_current _ _ _ hf hx, ← hcurdef, ← hprevdef]
    rw [if_neg (by omega)]
    rw [hxp]
    rw [← hste, ← hspe]
    rfl

/-- Claim C2: for every series with at least 2 samples in the target month
and no sample at all in the immediately preceding calendar month,
`getDeltaWithFallback` returns `FirstMeasurement` carrying the value of the
target month's last (greatest-timestamp) sample, unrounded and unchanged. -/
theorem getDelta_firstMeasurement (l : List Sample) (y : ℤ) (m : ℕ)
    (hc : 2 ≤ (monthSamples l y m).length)
    (hp : monthSamples l (prevYear y m) (prevMonth m) = []) :
    ∃ st : Sample, st ∈ l ∧ utcYearMonth st.ts = (y, m) ∧
      (∀ s ∈ l, utcYearMonth s.ts = (y, m) → s.ts ≤ st.ts) ∧
      getDeltaWithFallback (some l) y m
        = DeltaResult.FirstMeasurement st.value := by
  have hl : l ≠ [] := by
    intro h
    rw [h] at hc
    simp [monthSamples] at hc
  have hclen := length_sortedFilter l y m
  have hplen := length_sortedFilter l (prevYear y m) (prevMonth m)
  set cur := ((l.map addDate).mergeSort tsLe).filter
    (fun e => decide (e.date = (y, m))) with hcurdef
  set prevL := ((l.map addDate).mergeSort tsLe).filter
    (fun e => decide (e.date = (prevYear y m, prevMonth m))) with hprevdef
  have hprevnil : prevL = [] := by
    rw [hp] at hplen
    simp only [List.length_nil] at hplen
    exact List.length_eq_zero.mp hplen
  obtain ⟨x, hx⟩ : ∃ x, cur.getLast? = some x := by
    cases h : cur.getLast? with
    | none =>
      rw [List.getLast?_eq_none_iff.mp h] at hclen
      simp at hclen
      omega
    | some x => exact ⟨x, rfl⟩
  obtain ⟨f, hf⟩ : ∃ f, cur.head? = some f := by
    cases h : cur.head? with
    | none =>
      rw [List.head?_eq_none_iff.mp h] at hclen
      simp at hclen
      omega
    | some f => exact ⟨f, rfl⟩
  obtain ⟨st, hstl, hstm, hste⟩ :=
    (mem_sortedFilter_iff l y m x).mp (List.mem_of_getLast?_eq_some hx)
  refine ⟨st, hstl, hstm, ?_, ?_⟩
  · intro s hs hsm
    have hmem : addDate s ∈ cur :=
      (mem_sortedFilter_iff l y m (addDate s)).mpr ⟨s, hs, hsm, rfl⟩
    have := ts_le_getLast (pairwise_sortedFilter l y m) hx (addDate s) hmem
    rw [← hste] at this
    exact this
  · rw [getDelta_some l y m hl,
      deltaFromSorted_of_current _ _ _ hf hx, ← hcurdef, ← hprevdef]
    rw [if_neg (by omega)]
    rw [hprevnil]
    rw [← hste]
    rfl

/-- Claim C3: for every series in which exactly one sample falls in the
target month, regardless of what samples exist in any other month,
`getDeltaWithFallback` returns `SingleSample` carrying that sample's exact
value and exact timestamp. -/
theorem getDelta_singleSample (l : List Sample) (y : ℤ) (m : ℕ)
    (hc : (monthSamples l y m).length = 1) :
    ∀ s ∈ l, utcYearMonth s.ts = (y, m) →
      getDeltaWithFallback (some l) y m
        = DeltaResult.SingleSample s.value s.ts := by
  intro s hs hsm
  have hl : l ≠ [] := by
    intro h
    subst h
    simp at hs
  have hclen := length_sortedFilter l y m
  set cur := ((l.map addDate).mergeSort tsLe).filter
    (fun e => decide (e.date = (y, m))) with hcurdef
  have hcur1 : cur.length = 1 := by omega
  obtain ⟨f, hfone⟩ := List.length_eq_one.mp hcur1
  have hmem : addDate s ∈ cur :=
    (mem_sortedFilter_iff l y m (addDate s)).mpr ⟨s, hs, hsm, rfl⟩
  have hsf : addDate s = f := by
    rw [hfone] at hmem
    exact List.mem_singleton.mp hmem
  rw [getDelta_some l y m hl,
    deltaFromSorted_of_current _ _ _
      (show cur.head? = some f by rw [hfone]; rfl)
      (show cur.getLast? = some f by rw [hfone]; rfl),
    ← hcurdef]
  rw [if_pos hcur1, ← hsf]
  rfl

/-- Claim C4: `getDeltaWithFallback` returns `Empty` exactly when the
series is absent, contains zero samples, or contains no sample whose UTC
year/month equal the target month; being a total Lean function into
`DeltaResult`, it raises no error and maps every input to exactly one
result variant. -/
theorem getDelta_empty_iff (tv : Option (List Sample)) (y : ℤ) (m : ℕ) :
    getDeltaWithFallback tv y m = DeltaResult.Empty ↔
      tv = none ∨ ∃ l, tv = some l ∧ (l = [] ∨ monthSamples l y m = []) := by
  constructor
  · intro h
    cases tv with
    | none => exact Or.inl rfl
    | some l =>
      refine Or.inr ⟨l, rfl, ?_⟩
      by_cases hl : l = []
      · exact Or.inl hl
      by_cases hm : monthSamples l y m = []
      · exact Or.inr hm
      exfalso
      have hclen := length_sortedFilter l y m
      set cur := ((l.map addDate).mergeSort tsLe).filter
        (fun e => decide (e.date = (y, m))) with hcurdef
      have hcne : cur ≠ [] := by
        intro hc
        rw [hc] at hclen
        simp at hclen
        exact hm (List.length_eq_zero.mp hclen.symm)
      obtain ⟨x, hx⟩ : ∃ x, cur.getLast? = some x := by
        cases hcl : cur.getLast? with
        | none => exact absurd (List.getLast?_eq_none_iff.mp hcl) hcne
        | some x => exact ⟨x, rfl⟩
      obtain ⟨f, hf⟩ : ∃ f, cur.head? = some f := by
        cases hch : cur.head? with
        | none => exact absurd (List.head?_eq_none_iff.mp hch) hcne
        | some f => exact ⟨f, rfl⟩
      rw [getDelta_some l y m hl,
        deltaFromSorted_of_current _ _ _ hf hx] at h
      split at h
      · simp at h
      · split at h
        · simp at h
        · split at h <;> simp at h
  · rintro (rfl | ⟨l, rfl, (rfl | hm)⟩)
    · rfl
    · rfl
    · by_cases hl : l = []
      · subst hl
        rfl
      rw [getDelta_some l y m hl]
      apply deltaFromSorted_of_empty
      have hclen := length_sortedFilter l y m
      rw [hm] at hclen
      simp only [List.length_nil] at hclen
      exact List.length_eq_zero.mp hclen

/-- Claim C6 (amended): the result of `getDeltaWithFallback` is unchanged
under any permutation of the series — in particular any reordering of
samples sharing an equal timestamp — provided samples that share a
timestamp carry equal values. -/
theorem getDelta_perm_invariant (l l' : List Sample) (y : ℤ) (m : ℕ)
    (hperm : l.Perm l')
    (hties : ∀ a ∈ l, ∀ b ∈ l, a.ts = b.ts → a.value = b.value) :
    getDeltaWithFallback (some l) y m
      = getDeltaWithFallback (some l') y m := by
  have hsort : (l.map addDate).mergeSort tsLe
      = (l'.map addDate).mergeSort tsLe := by
    refine List.Perm.eq_of_sorted ?_
      (List.sorted_mergeSort tsLe_trans tsLe_total _)
      (List.sorted_mergeSort tsLe_trans tsLe_total _)
      ((List.mergeSort_perm _ _).trans
        ((hperm.map addDate).trans (List.mergeSort_perm _ _).symm))
    intro a b ha hb hab hba
    rw [List.mem_mergeSort] at ha hb
    obtain ⟨sa, hsal, rfl⟩ := List.mem_map.mp ha
    obtain ⟨sb, hsbl, rfl⟩ := List.mem_map.mp hb
    have hts : sa.ts = sb.ts := by
      simp only [tsLe, addDate, decide_eq_true_eq] at hab
      simp only [tsLe, addDate, decide_eq_true_eq] at hba
      omega
    have hsb : sb ∈ l := hperm.mem_iff.mpr hsbl
    have hval : sa.value = sb.value := hties sa hsal sb hsb hts
    simp [addDate, hts, hval]
  simp only [getDeltaWithFallback, getDeltaWithFallbackObs, hsort,
    hperm.length_eq]
  split <;> rfl

theorem getDelta_NoChange_value (tv : Option (List Sample)) (y : ℤ) (m : ℕ)
    (v : ℚ) (h : getDeltaWithFallback tv y m = DeltaResult.NoChange v) :
    v = 0 := by
  cases tv with
  | none => exact DeltaResult.noConfusion h
  | some l =>
    by_cases hl : l = []
    · subst hl
      exact DeltaResult.noConfusion h
    rw [getDelta_some l y m hl] at h
    simp only [deltaFromSorted] at h
    split at h
    · split at h
      · exact DeltaResult.noConfusion h
      · split at h
        · exact DeltaResult.noConfusion h
        · split at h
          · exact ((DeltaResult.NoChange.inj h)).symm
          · exact DeltaResult.noConfusion h
    · exact DeltaResult.noConfusion h

/-- Claim C7: the aggregator extracts a numeric value from each of the two
engine results (the number itself for `Numeric`, the carried value for
`SingleSample` and `FirstMeasurement`, `0` for `NoChange` and `Empty`),
reports `net = round2 (consumptionValue - feedValue)`, and returns both
`DeltaResult`s themselves unchanged alongside the net. -/
theorem calculateMonthly_aggregates (fs cs : Option (List Sample))
    (y : ℤ) (m : ℕ) :
    calculateMonthlyConsumption fs cs y m =
      { feed_monthly := getDeltaWithFallback fs y m
        consumption_monthly := getDeltaWithFallback cs y m
        net_consumption := round2 (specValueOf (getDeltaWithFallback cs y m)
          - specValueOf (getDeltaWithFallback fs y m)) } := by
  have key : ∀ tv : Option (List Sample),
      extractValue (getDeltaWithFallback tv y m)
        = specValueOf (getDeltaWithFallback tv y m) := by
    intro tv
    cases hr : getDeltaWithFallback tv y m with
    | NoChange v =>
      rw [getDelta_NoChange_value tv y m v hr]
      rfl
    | Empty => rfl
    | SingleSample v t => rfl
    | FirstMeasurement v => rfl
    | Numeric v => rfl
  simp only [calculateMonthlyConsumption, key]

/-- Claim C8: `getDeltaWithFallback` never mutates the caller's series —
the source sorts the fresh array produced by `map`, so after any call the
caller-observed series equals the input — and a second call on the
post-call state returns the identical result. -/
theorem getDelta_no_mutation (tv : Option (List Sample)) (y : ℤ) (m : ℕ) :
    (getDeltaWithFallbackObs tv y m).2 = tv ∧
      getDeltaWithFallbackObs ((getDeltaWithFallbackObs tv y m).2) y m
        = getDeltaWithFallbackObs tv y m := by
  have h : (getDeltaWithFallbackObs tv y m).2 = tv := by
    cases tv with
    | none => rfl
    | some l =>
      simp only [getDeltaWithFallbackObs]
      split <;> rfl
  exact ⟨h, by rw [h]⟩

/-- Claim C10: whenever `getDeltaWithFallback` returns the `NoChange`
variant, the returned object carries a numeric `value` field equal to
exactly `0`, so the aggregator's value extraction applied to it yields `0`
rather than its null-default. -/
theorem getDelta_noChange_carries_zero (tv : Option (List Sample))
    (y : ℤ) (m : ℕ) (v : ℚ)
    (h : getDeltaWithFallback tv y m = DeltaResult.NoChange v) :
    v = 0 ∧ extractValue (DeltaResult.NoChange v) = 0 := by
  have hv := getDelta_NoChange_value tv y m v h
  subst hv
  exact ⟨rfl, rfl⟩

/-- Claim C5: `round2`, as applied to the computed delta, rounds to 2
decimal places using round-half-away-from-zero: `round2 2156.425 =
2156.43`, and `round2 (-0.004) = 0` with the result a non-negative
rational. -/
theorem round2_examples :
    round2 (2156.425 : ℚ) = 2156.43 ∧ round2 (-0.004 : ℚ) = 0
      ∧ 0 ≤ round2 (-0.004 : ℚ) := by
  have h1 : round2 (2156.425 : ℚ) = 2156.43 := by
    rw [round2, roundHalfAway]
    rw [if_pos (by norm_num)]
    rw [ratFloor_eq_floor]
    rw [show ((2156.425 : ℚ) * 100 + 1/2) = 215643 from by norm_num]
    rw [show ⌊(215643 : ℚ)⌋ = 215643 from by norm_num]
    norm_num
  have h2 : round2 (-0.004 : ℚ) = 0 := by
    rw [round2, roundHalfAway]
    rw [if_neg (by norm_num)]
    rw [ratFloor_eq_floor]
    rw [show (-((-0.004 : ℚ) * 100) + 1/2) = 0.9 from by norm_num]
    rw [show ⌊(0.9 : ℚ)⌋ = 0 from by norm_num]
    norm_num
  exact ⟨h1, h2, by rw [h2]⟩

theorem script_feed_delta :
    getDeltaWithFallback (some feed) 2025 2
      = DeltaResult.Numeric (577.98 : ℚ) := by
  rw [getDeltaWithFallback_eq_exec]
  rw [show getDeltaWithFallbackExec (some feed) 2025 2
      = (if round2 ((2156.43 : ℚ) - 1578.45) = 0 then DeltaResult.NoChange 0
         else DeltaResult.Numeric (round2 ((2156.43 : ℚ) - 1578.45)))
      from rfl]
  rw [show ((2156.43 : ℚ) - 1578.45) = ((57798 : ℤ) : ℚ) / 100 from by
    norm_num]
  rw [round2_div100, if_neg (by norm_num)]
  norm_num

theorem script_consumption_delta :
    getDeltaWithFallback (some consumption) 2025 2
      = DeltaResult.Numeric (23066.70 : ℚ) := by
  rw [getDeltaWithFallback_eq_exec]
  rw [show getDeltaWithFallbackExec (some consumption) 2025 2
      = (if round2 ((116790.68 : ℚ) - 93723.98) = 0 then
           DeltaResult.NoChange 0
         else DeltaResult.Numeric (round2 ((116790.68 : ℚ) - 93723.98)))
      from rfl]
  rw [show ((116790.68 : ℚ) - 93723.98) = ((2306670 : ℤ) : ℚ) / 100 from by
    norm_num]
  rw [round2_div100, if_neg (by norm_num)]
  norm_num

theorem script_run :
    calculateMonthlyConsumption (some feed) (some consumption) 2025 2 =
      { feed_monthly := DeltaResult.Numeric (577.98 : ℚ)
        consumption_monthly := DeltaResult.Numeric (23066.70 : ℚ)
        net_consumption := (22488.72 : ℚ) } := by
  simp only [calculateMonthlyConsumption, script_feed_delta,
    script_consumption_delta, extractValue]
  simp only [MonthlyResult.mk.injEq]
  refine ⟨trivial, trivial, ?_⟩
  rw [show ((23066.70 : ℚ) - 577.98) = ((2248872 : ℤ) : ℚ) / 100 from by
    norm_num]
  rw [round2_div100]
  norm_num

/-- Claim C9 (amended): for the concrete hardcoded series with target
March 2025, the engine returns `Numeric 577.98` for feed and
`Numeric 23066.70` for consumption, and the aggregator reports
`net_consumption = 22488.72`.  (In UTC the fourth sample of each array
falls on March 1 and the last three samples fall on April 1, so March's
last sample is the one at timestamp 1743464710000 and February's last is
the one at 1740786908000.) -/
theorem script_result_march2025 :
    calculateMonthlyConsumption (some feed) (some consumption) 2025 2 =
      { feed_monthly := DeltaResult.Numeric (577.98 : ℚ)
        consumption_monthly := DeltaResult.Numeric (23066.70 : ℚ)
        net_consumption := (22488.72 : ℚ) } :=
  script_run

/-- Claim C9 fails on the code: for the hardcoded series with target March
2025, the consumption result is not `Numeric 23088.44` and the reported
net is not `22510.46` (the code yields `Numeric 23066.70` and `22488.72`,
because the sample clusters straddle the UTC month boundaries). -/
theorem script_result_counterexample :
    (calculateMonthlyConsumption (some feed) (some consumption)
        2025 2).consumption_monthly ≠ DeltaResult.Numeric (23088.44 : ℚ) ∧
    (calculateMonthlyConsumption (some feed) (some consumption)
        2025 2).net_consumption ≠ (22510.46 : ℚ) := by
  rw [script_run]
  constructor
  · intro h
    have h' := DeltaResult.Numeric.inj h
    norm_num at h'
  · intro h
    norm_num at h

/-- Claim C6 fails on the code as stated: the two series below are
reorderings of one another only in the two samples sharing timestamp
1740785107000 (which carry different values 1 and 2), yet the results
differ — the stable sort makes `lastOfPrev` pick whichever tied sample
came later in the input. -/
theorem tie_reorder_counterexample :
    (Sample.mk 1740785107000 1).ts = (Sample.mk 1740785107000 2).ts ∧
    getDeltaWithFallback (some [⟨1740785107000, 1⟩, ⟨1740785107000, 2⟩,
        ⟨1740787508000, 10⟩, ⟨1743464710000, 20⟩]) 2025 2
      ≠ getDeltaWithFallback (some [⟨1740785107000, 2⟩, ⟨1740785107000, 1⟩,
        ⟨1740787508000, 10⟩, ⟨1743464710000, 20⟩]) 2025 2 := by
  refine ⟨rfl, ?_⟩
  have hA : getDeltaWithFallback (some [⟨1740785107000, 1⟩,
      ⟨1740785107000, 2⟩, ⟨1740787508000, 10⟩, ⟨1743464710000, 20⟩]) 2025 2
      = DeltaResult.Numeric (18 : ℚ) := by
    rw [getDeltaWithFallback_eq_exec]
    rw [show getDeltaWithFallbackExec (some [⟨1740785107000, 1⟩,
        ⟨1740785107000, 2⟩, ⟨1740787508000, 10⟩, ⟨1743464710000, 20⟩]) 2025 2
        = (if round2 ((20 : ℚ) - 2) = 0 then DeltaResult.NoChange 0
           else DeltaResult.Numeric (round2 ((20 : ℚ) - 2))) from rfl]
    rw [show ((20 : ℚ) - 2) = ((18 : ℤ) : ℚ) from by norm_num,
      round2_intCast, if_neg (by norm_num)]
    norm_num
  have hB : getDeltaWithFallback (some [⟨1740785107000, 2⟩,
      ⟨1740785107000, 1⟩, ⟨1740787508000, 10⟩, ⟨1743464710000, 20⟩]) 2025 2
      = DeltaResult.Numeric (19 : ℚ) := by
    rw [getDeltaWithFallback_eq_exec]
    rw [show getDeltaWithFallbackExec (some [⟨1740785107000, 2⟩,
        ⟨1740785107000, 1⟩, ⟨1740787508000, 10⟩, ⟨1743464710000, 20⟩]) 2025 2
        = (if round2 ((20 : ℚ) - 1) = 0 then DeltaResult.NoChange 0
           else DeltaResult.Numeric (round2 ((20 : ℚ) - 1))) from rfl]
    rw [show ((20 : ℚ) - 1) = ((19 : ℤ) : ℚ) from by norm_num,
      round2_intCast, if_neg (by norm_num)]
    norm_num
  rw [hA, hB]
  intro h
  have h' := DeltaResult.Numeric.inj h
  norm_num at h'

theorem getDelta_numeric_or_noChange_witness :
    2 ≤ (monthSamples [⟨-1, 5⟩, ⟨0, 7⟩, ⟨86400000, 9⟩] 1970 0).length ∧
    1 ≤ (monthSamples [⟨-1, 5⟩, ⟨0, 7⟩, ⟨86400000, 9⟩]
          (prevYear 1970 0) (prevMonth 0)).length ∧
    (∃ st sp : Sample,
      st ∈ ([⟨-1, 5⟩, ⟨0, 7⟩, ⟨86400000, 9⟩] : List Sample) ∧
      utcYearMonth st.ts = (1970, 0) ∧
      (∀ s ∈ ([⟨-1, 5⟩, ⟨0, 7⟩, ⟨86400000, 9⟩] : List Sample),
        utcYearMonth s.ts = (1970, 0) → s.ts ≤ st.ts) ∧
      sp ∈ ([⟨-1, 5⟩, ⟨0, 7⟩, ⟨86400000, 9⟩] : List Sample) ∧
      utcYearMonth sp.ts = (prevYear 1970 0, prevMonth 0) ∧
      (∀ s ∈ ([⟨-1, 5⟩, ⟨0, 7⟩, ⟨86400000, 9⟩] : List Sample),
        utcYearMonth s.ts = (prevYear 1970 0, prevMonth 0) →
          s.ts ≤ sp.ts) ∧
      getDeltaWithFallback
          (some [⟨-1, 5⟩, ⟨0, 7⟩, ⟨86400000, 9⟩]) 1970 0 =
        (if round2 (st.value - sp.value) = 0 then DeltaResult.NoChange 0
         else DeltaResult.Numeric (round2 (st.value - sp.value)))) :=
  ⟨by decide, by decide,
    getDelta_numeric_or_noChange _ 1970 0 (by decide) (by decide)⟩

theorem getDelta_firstMeasurement_witness :
    2 ≤ (monthSamples [⟨0, 3⟩, ⟨86400000, 5⟩] 1970 0).length ∧
    monthSamples [⟨0, 3⟩, ⟨86400000, 5⟩]
        (prevYear 1970 0) (prevMonth 0) = [] ∧
    (∃ st : Sample, st ∈ ([⟨0, 3⟩, ⟨86400000, 5⟩] : List Sample) ∧
      utcYearMonth st.ts = (1970, 0) ∧
      (∀ s ∈ ([⟨0, 3⟩, ⟨86400000, 5⟩] : List Sample),
        utcYearMonth s.ts = (1970, 0) → s.ts ≤ st.ts) ∧
      getDeltaWithFallback (some [⟨0, 3⟩, ⟨86400000, 5⟩]) 1970 0
        = DeltaResult.FirstMeasurement st.value) :=
  ⟨by decide, by decide,
    getDelta_firstMeasurement _ 1970 0 (by decide) (by decide)⟩

theorem getDelta_singleSample_witness :
    (monthSamples [⟨-1, 7⟩, ⟨0, 42⟩] 1970 0).length = 1 ∧
    getDeltaWithFallback (some [⟨-1, 7⟩, ⟨0, 42⟩]) 1970 0
      = DeltaResult.SingleSample 42 0 :=
  ⟨by decide,
    getDelta_singleSample _ 1970 0 (by decide) ⟨0, 42⟩
      (List.mem_cons_of_mem _ (List.mem_cons_self _ _)) (by decide)⟩

theorem getDelta_perm_invariant_witness :
    ([⟨0, 3⟩, ⟨86400000, 4⟩] : List Sample).Perm
      ([⟨86400000, 4⟩, ⟨0, 3⟩] : List Sample) ∧
    getDeltaWithFallback (some [⟨0, 3⟩, ⟨86400000, 4⟩]) 1970 0
      = getDeltaWithFallback (some [⟨86400000, 4⟩, ⟨0, 3⟩]) 1970 0 :=
  ⟨List.Perm.swap _ _ _,
    getDelta_perm_invariant _ _ 1970 0 (List.Perm.swap _ _ _) (by decide)⟩

theorem getDelta_noChange_carries_zero_witness :
    getDeltaWithFallback (some [⟨-1, 5⟩, ⟨0, 5⟩, ⟨86400000, 5⟩]) 1970 0
      = DeltaResult.NoChange 0 ∧
    ((0 : ℚ) = 0 ∧ extractValue (DeltaResult.NoChange 0) = 0) := by
  have h : getDeltaWithFallback
      (some [⟨-1, 5⟩, ⟨0, 5⟩, ⟨86400000, 5⟩]) 1970 0
      = DeltaResult.NoChange 0 := by
    rw [getDeltaWithFallback_eq_exec]
    rw [show getDeltaWithFallbackExec
        (some [⟨-1, 5⟩, ⟨0, 5⟩, ⟨86400000, 5⟩]) 1970 0
        = (if round2 ((5 : ℚ) - 5) = 0 then DeltaResult.NoChange 0
           else DeltaResult.Numeric (round2 ((5 : ℚ) - 5))) from rfl]
    rw [show ((5 : ℚ) - 5) = ((0 : ℤ) : ℚ) from by norm_num,
      round2_intCast, if_pos (by norm_num)]
  exact ⟨h, getDelta_noChange_carries_zero _ 1970 0 0 h⟩

end MonatsBerechnung
